import Mathlib

/-!
Verification development for the qris-edit repository: a shallow embedding
of its rectangle-editor, aspect-fit compositor, page-tiler and config
import/export code, with theorems settling the specification's claims.
Number values are modelled by exact rationals.
-/

namespace QrisEdit

/-- Percentage-based selection rectangle (`AreaConfig` in AreaSelector.tsx):
all four fields are percentages of the frame's dimensions. -/
structure AreaConfig where
  x : ℚ
  y : ℚ
  width : ℚ
  height : ℚ
  deriving DecidableEq

/-- Absolute-pixel rectangle (the `targetArea` object in ImageMerger, and the
draw rectangle the compositor produces). -/
structure PxRect where
  x : ℚ
  y : ℚ
  width : ℚ
  height : ℚ
  deriving DecidableEq

/-- Pixel dimensions of a decoded raster image (an `HTMLImageElement`'s
`width`/`height` once loaded). -/
structure ImgDims where
  width : ℚ
  height : ℚ
  deriving DecidableEq

/-- The Rectangle invariants of the spec's data model (section 3). -/
def rectInvariants (a : AreaConfig) : Prop :=
  0 ≤ a.x ∧ 0 ≤ a.y ∧ a.x + a.width ≤ 100 ∧ a.y + a.height ≤ 100 ∧
    0 ≤ a.width ∧ 0 ≤ a.height

instance (a : AreaConfig) : Decidable (rectInvariants a) := by
  unfold rectInvariants; infer_instance

/-- Percentage rectangle to absolute pixels against a frame
(ImageMerger.tsx lines 36-41). -/
def toAbsolute (a : AreaConfig) (frame : ImgDims) : PxRect :=
  { x := a.x / 100 * frame.width
    y := a.y / 100 * frame.height
    width := a.width / 100 * frame.width
    height := a.height / 100 * frame.height }

/-- Aspect-fit placement of a source image into a target rectangle
(ImageMerger.tsx lines 55-72): if the source is proportionally wider it
fills the width and is vertically centred, otherwise it fills the height
and is horizontally centred. -/
def fitIntoArea (t : PxRect) (q : ImgDims) : PxRect :=
  let qrisAspect := q.width / q.height
  let targetAspect := t.width / t.height
  if qrisAspect > targetAspect then
    let drawWidth := t.width
    let drawHeight := drawWidth / qrisAspect
    { x := t.x, y := t.y + (t.height - drawHeight) / 2
      width := drawWidth, height := drawHeight }
  else
    let drawHeight := t.height
    let drawWidth := drawHeight * qrisAspect
    { x := t.x + (t.width - drawWidth) / 2, y := t.y
      width := drawWidth, height := drawHeight }

/-- C1: the compositor's draw rectangle follows the two aspect-fit branch
formulas exactly, preserves the source aspect ratio, and stays inside the
target rectangle. -/
theorem c1_aspect_fit (t : PxRect) (sw sh : ℚ)
    (hw : 0 < t.width) (hh : 0 < t.height) (hsw : 0 < sw) (hsh : 0 < sh) :
    (sw / sh > t.width / t.height →
      fitIntoArea t ⟨sw, sh⟩ =
        { x := t.x, y := t.y + (t.height - t.width / (sw / sh)) / 2
          width := t.width, height := t.width / (sw / sh) }) ∧
    (¬ (sw / sh > t.width / t.height) →
      fitIntoArea t ⟨sw, sh⟩ =
        { x := t.x + (t.width - t.height * (sw / sh)) / 2, y := t.y
          width := t.height * (sw / sh), height := t.height }) ∧
    (fitIntoArea t ⟨sw, sh⟩).width / (fitIntoArea t ⟨sw, sh⟩).height = sw / sh ∧
    t.x ≤ (fitIntoArea t ⟨sw, sh⟩).x ∧
    t.y ≤ (fitIntoArea t ⟨sw, sh⟩).y ∧
    (fitIntoArea t ⟨sw, sh⟩).x + (fitIntoArea t ⟨sw, sh⟩).width ≤ t.x + t.width ∧
    (fitIntoArea t ⟨sw, sh⟩).y + (fitIntoArea t ⟨sw, sh⟩).height ≤ t.y + t.height := by
  have ha : 0 < sw / sh := div_pos hsw hsh
  by_cases hc : sw / sh > t.width / t.height
  · have key : t.width / (sw / sh) ≤ t.height := by
      rw [div_le_iff₀ ha]
      have h1 : t.width < sw / sh * t.height := (div_lt_iff₀ hh).mp hc
      nlinarith [h1]
    have heq : fitIntoArea t ⟨sw, sh⟩ =
        { x := t.x, y := t.y + (t.height - t.width / (sw / sh)) / 2
          width := t.width, height := t.width / (sw / sh) } := by
      simp only [fitIntoArea, if_pos hc]
    refine ⟨fun _ => heq, fun h => absurd hc h, ?_, ?_, ?_, ?_, ?_⟩ <;>
      rw [heq] <;> dsimp only
    · rw [div_div_eq_mul_div, mul_comm, mul_div_assoc,
        div_self (ne_of_gt hw), mul_one]
    · linarith [key]
    · linarith [key]
  · have hc' : sw / sh ≤ t.width / t.height := le_of_not_lt hc
    have key : t.height * (sw / sh) ≤ t.width := by
      have h1 : sw / sh * t.height ≤ t.width := (le_div_iff₀ hh).mp hc'
      nlinarith [h1]
    have heq : fitIntoArea t ⟨sw, sh⟩ =
        { x := t.x + (t.width - t.height * (sw / sh)) / 2, y := t.y
          width := t.height * (sw / sh), height := t.height } := by
      simp only [fitIntoArea, if_neg hc]
    refine ⟨fun h => absurd h hc, fun _ => heq, ?_, ?_, ?_, ?_, ?_⟩ <;>
      rw [heq] <;> dsimp only
    · rw [mul_comm, mul_div_assoc, div_self (ne_of_gt hh), mul_one]
    · linarith [key]
    · linarith [key]

/-- Witness for C1 at the spec's concrete example: target rectangle
`{x:100, y:100, w:100, h:200}` with a 200 by 100 source gives the draw
rectangle `{x:100, y:175, w:100, h:50}`. -/
theorem c1_aspect_fit_witness :
    fitIntoArea ⟨100, 100, 100, 200⟩ ⟨200, 100⟩ = ⟨100, 175, 100, 50⟩ := by
  have h := (c1_aspect_fit ⟨100, 100, 100, 200⟩ 200 100
    (by norm_num) (by norm_num) (by norm_num) (by norm_num)).1 (by norm_num)
  rw [h]
  simp only [PxRect.mk.injEq]
  norm_num

/-- Frame-relative pointer position in percentage units. -/
structure Point where
  x : ℚ
  y : ℚ
  deriving DecidableEq

/-- The editor's gesture modes (`DragMode` in AreaSelector.tsx line 17). -/
inductive DragMode where
  | none | draw | move | resizeTL | resizeTR | resizeBL | resizeBR
  deriving DecidableEq

/-- Whether a mode is one of the four corner-resize modes
(the `dragMode.startsWith` test in AreaSelector.tsx line 109). -/
def isResizeMode : DragMode → Bool
  | .resizeTL | .resizeTR | .resizeBL | .resizeBR => true
  | _ => false

/-- Pointer-down hit test (AreaSelector.tsx lines 37-60): each corner is
checked in order tl, tr, bl, br with tolerance 3 on both axes, then the
interior, and anything else starts a new draw. -/
def getCornerAtPosition (pos : Point) (area : AreaConfig) : DragMode :=
  if |pos.x - area.x| < 3 ∧ |pos.y - area.y| < 3 then .resizeTL
  else if |pos.x - (area.x + area.width)| < 3 ∧ |pos.y - area.y| < 3 then .resizeTR
  else if |pos.x - area.x| < 3 ∧ |pos.y - (area.y + area.height)| < 3 then .resizeBL
  else if |pos.x - (area.x + area.width)| < 3 ∧
      |pos.y - (area.y + area.height)| < 3 then .resizeBR
  else if area.x ≤ pos.x ∧ pos.x ≤ area.x + area.width ∧
      area.y ≤ pos.y ∧ pos.y ≤ area.y + area.height then .move
  else .draw

/-- Draw-mode candidate (AreaSelector.tsx lines 87-94): the normalized
rectangle spanning the anchor and the current position. -/
def drawArea (start pos : Point) : AreaConfig :=
  { x := min start.x pos.x
    y := min start.y pos.y
    width := |pos.x - start.x|
    height := |pos.y - start.y| }

/-- Move-mode candidate (AreaSelector.tsx lines 95-108): translate the
original rectangle, then cap the position so it stays inside the frame. -/
def moveArea (o : AreaConfig) (dx dy : ℚ) : AreaConfig :=
  { x := max 0 (min (100 - o.width) (o.x + dx))
    y := max 0 (min (100 - o.height) (o.y + dy))
    width := o.width
    height := o.height }

/-- The shared tail of the resize branch (AreaSelector.tsx lines 136-141):
floor width/height at 2, then re-clamp the position. -/
def floorAndClamp (b : AreaConfig) : AreaConfig :=
  let nw := if b.width < 2 then 2 else b.width
  let nh := if b.height < 2 then 2 else b.height
  { x := max 0 (min (100 - nw) b.x)
    y := max 0 (min (100 - nh) b.y)
    width := nw
    height := nh }

/-- Resize-mode candidate (AreaSelector.tsx lines 109-141): per-corner
adjustment by the pointer delta, then the floor-and-clamp tail. -/
def resizeArea (m : DragMode) (o : AreaConfig) (dx dy : ℚ) : AreaConfig :=
  floorAndClamp
    (match m with
      | .resizeTL => ⟨o.x + dx, o.y + dy, o.width - dx, o.height - dy⟩
      | .resizeTR => ⟨o.x, o.y + dy, o.width + dx, o.height - dy⟩
      | .resizeBL => ⟨o.x + dx, o.y, o.width - dx, o.height + dy⟩
      | .resizeBR => ⟨o.x, o.y, o.width + dx, o.height + dy⟩
      | _ => ⟨o.x, o.y, o.width, o.height⟩)

/-- The editor's relevant state: the drag session fields of AreaSelector
plus the persisted rectangle held by the parent (the value handed to
`onAreaChange`). -/
structure EditorState where
  dragMode : DragMode
  dragStart : Option Point
  tempArea : Option AreaConfig
  originalArea : Option AreaConfig
  persisted : Option AreaConfig
  deriving DecidableEq

/-- Pointer-move transition (AreaSelector.tsx lines 82-143): no-op unless a
gesture is active; draw, move and resize branches update the candidate. -/
def handleMouseMove (s : EditorState) (pos : Point) : EditorState :=
  match s.dragStart with
  | Option.none => s
  | Option.some start =>
    if s.dragMode = DragMode.none then s
    else if s.dragMode = DragMode.draw then
      { s with tempArea := some (drawArea start pos) }
    else if s.dragMode = DragMode.move then
      match s.originalArea with
      | some o =>
        { s with tempArea := some (moveArea o (pos.x - start.x) (pos.y - start.y)) }
      | Option.none => s
    else if isResizeMode s.dragMode then
      match s.originalArea with
      | some o =>
        let c := resizeArea s.dragMode o (pos.x - start.x) (pos.y - start.y)
        { s with tempArea := some c }
      | Option.none => s
    else s

/-- The commit decision of pointer-up (AreaSelector.tsx lines 146-150):
the argument passed to `onAreaChange`, or none when it is not invoked. -/
def commitCandidate (m : DragMode) (ta : Option AreaConfig) : Option AreaConfig :=
  if m ≠ DragMode.none then
    match ta with
    | some t => if 1 < t.width ∧ 1 < t.height then some t else Option.none
    | Option.none => Option.none
  else Option.none

/-- Pointer-up transition (AreaSelector.tsx lines 145-155). The second
component is the argument passed to the `onAreaChange` collaborator; the
parent then stores it as the persisted rectangle. Session state is
cleared unconditionally. -/
def handleMouseUp (s : EditorState) : EditorState × Option AreaConfig :=
  let invoked := commitCandidate s.dragMode s.tempArea
  ({ dragMode := DragMode.none
     dragStart := Option.none
     tempArea := Option.none
     originalArea := Option.none
     persisted := (match invoked with
       | some t => some t
       | Option.none => s.persisted) },
   invoked)

lemma clamp_axis (v w : ℚ) :
    0 ≤ max 0 (min (100 - w) v) ∧
    max 0 (min (100 - w) v) + w ≤ max 100 w ∧
    (w ≤ 100 → max 0 (min (100 - w) v) + w ≤ 100) := by
  refine ⟨le_max_left _ _, ?_, ?_⟩
  · rcases le_total w 100 with h | h
    · have h1 : max 0 (min (100 - w) v) ≤ 100 - w :=
        max_le (by linarith) (min_le_left _ _)
      have h2 : (100 : ℚ) ≤ max 100 w := le_max_left _ _
      linarith
    · have h2 : max 0 (min (100 - w) v) = 0 :=
        max_eq_left (le_trans (min_le_left _ _) (by linarith))
      rw [h2]
      have h3 : w ≤ max 100 w := le_max_right _ _
      linarith
  · intro h
    have h1 : max 0 (min (100 - w) v) ≤ 100 - w :=
      max_le (by linarith) (min_le_left _ _)
    linarith

lemma floor_two (v : ℚ) : 2 ≤ if v < 2 then 2 else v := by
  split
  · exact le_refl 2
  · exact le_of_not_lt (by assumption)

lemma floorAndClamp_bounds (b : AreaConfig) :
    0 ≤ (floorAndClamp b).x ∧ 0 ≤ (floorAndClamp b).y ∧
    2 ≤ (floorAndClamp b).width ∧ 2 ≤ (floorAndClamp b).height ∧
    (floorAndClamp b).x + (floorAndClamp b).width ≤
      max 100 (floorAndClamp b).width ∧
    (floorAndClamp b).y + (floorAndClamp b).height ≤
      max 100 (floorAndClamp b).height ∧
    ((floorAndClamp b).width ≤ 100 →
      (floorAndClamp b).x + (floorAndClamp b).width ≤ 100) ∧
    ((floorAndClamp b).height ≤ 100 →
      (floorAndClamp b).y + (floorAndClamp b).height ≤ 100) := by
  unfold floorAndClamp
  dsimp only
  obtain ⟨hx0, hxw, hxc⟩ := clamp_axis b.x (if b.width < 2 then 2 else b.width)
  obtain ⟨hy0, hyh, hyc⟩ := clamp_axis b.y (if b.height < 2 then 2 else b.height)
  exact ⟨hx0, hy0, floor_two _, floor_two _, hxw, hyh, hxc, hyc⟩

/-- C2 (amended): a resize pointer-move always yields a candidate with
`0 ≤ x`, `0 ≤ y`, floored size at least 2, and position clamped so that
`x + width ≤ max 100 width` and `y + height ≤ max 100 height`; the claimed
in-bounds invariants `x + width ≤ 100` and `y + height ≤ 100` hold only
when the floored width (resp. height) is at most 100 — the code re-clamps
position but never shrinks an oversized width or height. -/
theorem c2_resize_bounds (s : EditorState) (pos st : Point) (o c : AreaConfig)
    (hm : s.dragMode = DragMode.resizeTL ∨ s.dragMode = DragMode.resizeTR ∨
      s.dragMode = DragMode.resizeBL ∨ s.dragMode = DragMode.resizeBR)
    (hst : s.dragStart = some st) (ho : s.originalArea = some o)
    (hc : (handleMouseMove s pos).tempArea = some c) :
    0 ≤ c.x ∧ 0 ≤ c.y ∧ 2 ≤ c.width ∧ 2 ≤ c.height ∧
    c.x + c.width ≤ max 100 c.width ∧ c.y + c.height ≤ max 100 c.height ∧
    (c.width ≤ 100 → c.x + c.width ≤ 100) ∧
    (c.height ≤ 100 → c.y + c.height ≤ 100) := by
  obtain ⟨m, ds, ta, oa, p⟩ := s
  dsimp only at hm hst ho hc
  subst hst ho
  rcases hm with rfl | rfl | rfl | rfl <;>
    · obtain rfl := Option.some_inj.mp hc
      exact floorAndClamp_bounds _

/-- Witness for C2's amended theorem at a concrete resize-br gesture. -/
theorem c2_resize_bounds_witness :
    (0 : ℚ) ≤ (AreaConfig.mk 0 0 102 102).x ∧
    (0 : ℚ) ≤ (AreaConfig.mk 0 0 102 102).y ∧
    (2 : ℚ) ≤ (AreaConfig.mk 0 0 102 102).width ∧
    (2 : ℚ) ≤ (AreaConfig.mk 0 0 102 102).height ∧
    (AreaConfig.mk 0 0 102 102).x + (AreaConfig.mk 0 0 102 102).width ≤
      max 100 (AreaConfig.mk 0 0 102 102).width ∧
    (AreaConfig.mk 0 0 102 102).y + (AreaConfig.mk 0 0 102 102).height ≤
      max 100 (AreaConfig.mk 0 0 102 102).height ∧
    ((AreaConfig.mk 0 0 102 102).width ≤ 100 →
      (AreaConfig.mk 0 0 102 102).x + (AreaConfig.mk 0 0 102 102).width ≤ 100) ∧
    ((AreaConfig.mk 0 0 102 102).height ≤ 100 →
      (AreaConfig.mk 0 0 102 102).y + (AreaConfig.mk 0 0 102 102).height ≤ 100) :=
  c2_resize_bounds
    ⟨DragMode.resizeBR, some ⟨97, 97⟩, Option.none, some ⟨0, 0, 99, 99⟩, Option.none⟩
    ⟨100, 100⟩ ⟨97, 97⟩ ⟨0, 0, 99, 99⟩ ⟨0, 0, 102, 102⟩
    (Or.inr (Or.inr (Or.inr rfl))) rfl rfl
    (by
      have h1 : (handleMouseMove
          ⟨DragMode.resizeBR, some ⟨97, 97⟩, Option.none,
            some ⟨0, 0, 99, 99⟩, Option.none⟩ ⟨100, 100⟩).tempArea =
          some (resizeArea DragMode.resizeBR ⟨0, 0, 99, 99⟩
            ((100 : ℚ) - 97) ((100 : ℚ) - 97)) := rfl
      have h2 : resizeArea DragMode.resizeBR ⟨0, 0, 99, 99⟩
          ((100 : ℚ) - 97) ((100 : ℚ) - 97) =
          floorAndClamp ⟨0, 0, 99 + ((100 : ℚ) - 97), 99 + ((100 : ℚ) - 97)⟩ := rfl
      rw [h1, h2, Option.some_inj]
      unfold floorAndClamp
      simp only [AreaConfig.mk.injEq]
      norm_num [min_def, max_def])

/-- Counterexample for C2 as stated: the original rectangle
`{x:0, y:0, w:99, h:99}` satisfies the invariants, `(97, 97)` hit-tests to
the br corner handle, yet the pointer-move to `(100, 100)` produces the
candidate `{x:0, y:0, w:102, h:102}`, which violates `x + width ≤ 100`. -/
theorem c2_counterexample :
    rectInvariants ⟨0, 0, 99, 99⟩ ∧
    getCornerAtPosition ⟨97, 97⟩ ⟨0, 0, 99, 99⟩ = DragMode.resizeBR ∧
    (handleMouseMove
        ⟨DragMode.resizeBR, some ⟨97, 97⟩, Option.none,
          some ⟨0, 0, 99, 99⟩, some ⟨0, 0, 99, 99⟩⟩
        ⟨100, 100⟩).tempArea = some ⟨0, 0, 102, 102⟩ ∧
    ¬ rectInvariants ⟨0, 0, 102, 102⟩ := by
  refine ⟨by norm_num [rectInvariants], ?_, ?_, by norm_num [rectInvariants]⟩
  · unfold getCornerAtPosition
    simp only [abs_sub_lt_iff]
    norm_num
  · have h1 : (handleMouseMove
        ⟨DragMode.resizeBR, some ⟨97, 97⟩, Option.none,
          some ⟨0, 0, 99, 99⟩, some ⟨0, 0, 99, 99⟩⟩ ⟨100, 100⟩).tempArea =
        some (resizeArea DragMode.resizeBR ⟨0, 0, 99, 99⟩
          ((100 : ℚ) - 97) ((100 : ℚ) - 97)) := rfl
    have h2 : resizeArea DragMode.resizeBR ⟨0, 0, 99, 99⟩
        ((100 : ℚ) - 97) ((100 : ℚ) - 97) =
        floorAndClamp ⟨0, 0, 99 + ((100 : ℚ) - 97), 99 + ((100 : ℚ) - 97)⟩ := rfl
    rw [h1, h2, Option.some_inj]
    unfold floorAndClamp
    simp only [AreaConfig.mk.injEq]
    norm_num [min_def, max_def]

lemma commitCandidate_eq_some (m : DragMode) (ta : Option AreaConfig)
    (h : m ≠ DragMode.none) (t : AreaConfig) :
    commitCandidate m ta = some t ↔
      (ta = some t ∧ 1 < t.width ∧ 1 < t.height) := by
  unfold commitCandidate
  rw [if_pos h]
  cases ta with
  | none => simp
  | some t0 =>
    dsimp only
    by_cases hv : 1 < t0.width ∧ 1 < t0.height
    · rw [if_pos hv]
      constructor
      · intro ht
        rw [Option.some_inj] at ht
        subst ht
        exact ⟨rfl, hv⟩
      · rintro ⟨ht, -⟩
        rw [Option.some_inj] at ht
        subst ht
        rfl
    · rw [if_neg hv]
      constructor
      · intro ht
        exact absurd ht (by simp)
      · rintro ⟨ht, hw2, hh2⟩
        rw [Option.some_inj] at ht
        subst ht
        exact absurd ⟨hw2, hh2⟩ hv

/-- C5: during an active gesture, pointer-up invokes the area-changed
collaborator with the candidate exactly when the candidate exists and has
width and height strictly greater than 1; otherwise the persisted
rectangle is unchanged; and the drag-session fields are always cleared. -/
theorem c5_mouse_up_commit (s : EditorState) (h : s.dragMode ≠ DragMode.none) :
    (∀ t, (handleMouseUp s).2 = some t ↔
      (s.tempArea = some t ∧ 1 < t.width ∧ 1 < t.height)) ∧
    ((handleMouseUp s).2 = Option.none →
      (handleMouseUp s).1.persisted = s.persisted) ∧
    (∀ t, (handleMouseUp s).2 = some t →
      (handleMouseUp s).1.persisted = some t) ∧
    (handleMouseUp s).1.dragMode = DragMode.none ∧
    (handleMouseUp s).1.dragStart = Option.none ∧
    (handleMouseUp s).1.tempArea = Option.none ∧
    (handleMouseUp s).1.originalArea = Option.none := by
  obtain ⟨m, ds, ta, oa, p⟩ := s
  dsimp only at h ⊢
  refine ⟨fun t => commitCandidate_eq_some m ta h t, ?_, ?_, rfl, rfl, rfl, rfl⟩
  · intro hn
    show (match commitCandidate m ta with
      | some t => some t
      | Option.none => p) = p
    rw [show commitCandidate m ta = Option.none from hn]
  · intro t ht
    show (match commitCandidate m ta with
      | some u => some u
      | Option.none => p) = some t
    rw [show commitCandidate m ta = some t from ht]

/-- Witness for C5: a draw gesture whose candidate `{10,10,30,30}` is
valid commits it, and the session state is cleared. -/
theorem c5_mouse_up_commit_witness :
    (handleMouseUp
        ⟨DragMode.draw, some ⟨0, 0⟩, some ⟨10, 10, 30, 30⟩,
          Option.none, Option.none⟩).2 = some ⟨10, 10, 30, 30⟩ ∧
    (handleMouseUp
        ⟨DragMode.draw, some ⟨0, 0⟩, some ⟨10, 10, 30, 30⟩,
          Option.none, Option.none⟩).1.tempArea = Option.none := by
  have h := c5_mouse_up_commit
    ⟨DragMode.draw, some ⟨0, 0⟩, some ⟨10, 10, 30, 30⟩, Option.none, Option.none⟩
    (by decide)
  exact ⟨(h.1 ⟨10, 10, 30, 30⟩).mpr ⟨rfl, by norm_num, by norm_num⟩, h.2.2.2.2.2.1⟩

/-- C8: resizing from the tl corner of `{x:10, y:10, w:40, h:40}` with
pointer delta `(+5, +5)` yields candidate `{x:15, y:15, w:35, h:35}`,
keeping the opposite corner at `(50, 50)`. -/
theorem c8_resize_tl_example :
    (handleMouseMove
        ⟨DragMode.resizeTL, some ⟨10, 10⟩, Option.none,
          some ⟨10, 10, 40, 40⟩, some ⟨10, 10, 40, 40⟩⟩
        ⟨15, 15⟩).tempArea = some ⟨15, 15, 35, 35⟩ ∧
    (AreaConfig.mk 15 15 35 35).x + (AreaConfig.mk 15 15 35 35).width = 50 ∧
    (AreaConfig.mk 15 15 35 35).y + (AreaConfig.mk 15 15 35 35).height = 50 := by
  refine ⟨?_, by norm_num, by norm_num⟩
  have h1 : (handleMouseMove
      ⟨DragMode.resizeTL, some ⟨10, 10⟩, Option.none,
        some ⟨10, 10, 40, 40⟩, some ⟨10, 10, 40, 40⟩⟩ ⟨15, 15⟩).tempArea =
      some (resizeArea DragMode.resizeTL ⟨10, 10, 40, 40⟩
        ((15 : ℚ) - 10) ((15 : ℚ) - 10)) := rfl
  have h2 : resizeArea DragMode.resizeTL ⟨10, 10, 40, 40⟩
      ((15 : ℚ) - 10) ((15 : ℚ) - 10) =
      floorAndClamp ⟨10 + ((15 : ℚ) - 10), 10 + ((15 : ℚ) - 10),
        40 - ((15 : ℚ) - 10), 40 - ((15 : ℚ) - 10)⟩ := rfl
  rw [h1, h2, Option.some_inj]
  unfold floorAndClamp
  simp only [AreaConfig.mk.injEq]
  norm_num [min_def, max_def]

/-- One compositing pass (ImageMerger.tsx lines 43-83): each source image
either decodes to its pixel dimensions or fails (`Option.none`); a failure
is caught, logged and skipped, and the loop continues. Each success
contributes the aspect-fit placement of the source into the absolute-pixel
mapping of the area rectangle. -/
def mergeImages (frame : ImgDims) (area : AreaConfig) :
    List (Option ImgDims) → List PxRect
  | [] => []
  | Option.none :: rest => mergeImages frame area rest
  | some q :: rest =>
    fitIntoArea (toAbsolute area frame) q :: mergeImages frame area rest

/-- C4: a compositing pass maps exactly the successfully decoded sources,
in their original relative order, so the output has length N minus the
number of failures, and a failure never aborts the remaining batch. -/
theorem c4_merge_skip_failures (frame : ImgDims) (area : AreaConfig)
    (qris : List (Option ImgDims)) :
    mergeImages frame area qris =
      (qris.filterMap id).map (fitIntoArea (toAbsolute area frame)) ∧
    (mergeImages frame area qris).length =
      qris.length - qris.countP (fun o => o.isNone) ∧
    ∀ rest, mergeImages frame area (Option.none :: rest) =
      mergeImages frame area rest := by
  refine ⟨?_, ?_, fun rest => rfl⟩
  · induction qris with
    | nil => rfl
    | cons o rest ih =>
      cases o with
      | none => simpa [mergeImages, List.filterMap_cons] using ih
      | some q => simpa [mergeImages, List.filterMap_cons] using ih
  · induction qris with
    | nil => rfl
    | cons o rest ih =>
      have hle : List.countP (fun o : Option ImgDims => o.isNone) rest ≤
          rest.length := List.countP_le_length _
      cases o with
      | none =>
        have hcount : List.countP (fun o : Option ImgDims => o.isNone)
            (Option.none :: rest) =
            List.countP (fun o : Option ImgDims => o.isNone) rest + 1 := by
          simp [List.countP_cons]
        rw [show mergeImages frame area (Option.none :: rest) =
          mergeImages frame area rest from rfl, ih, List.length_cons, hcount]
        omega
      | some q =>
        have hcount : List.countP (fun o : Option ImgDims => o.isNone)
            (some q :: rest) =
            List.countP (fun o : Option ImgDims => o.isNone) rest := by
          simp [List.countP_cons]
        rw [show mergeImages frame area (some q :: rest) =
          fitIntoArea (toAbsolute area frame) q :: mergeImages frame area rest
          from rfl, List.length_cons, ih, List.length_cons, hcount]
        omega

/-- Page orientation of the export (PrintLayout.tsx lines 35-37). -/
inductive Orientation where
  | portrait
  | landscape
  deriving DecidableEq

/-- PrintLayout.tsx lines 35-37: two or more images per page means
landscape, otherwise portrait. -/
def getOrientation (ipp : ℚ) : Orientation :=
  if 2 ≤ ipp then Orientation.landscape else Orientation.portrait

/-- The on-screen grid class (PrintLayout.tsx lines 19-32): a switch on
`imagesPerPage` whose default case is the 2-column class. -/
def getGridClass (ipp : ℚ) : String :=
  if ipp = 1 then "grid-cols-1"
  else if ipp = 2 then "grid-cols-2"
  else if ipp = 4 then "grid-cols-2"
  else if ipp = 6 then "grid-cols-3"
  else "grid-cols-2"

/-- Page partition helper: `pagesAux ipp fuel l` runs the slicing loop of
PrintLayout.tsx lines 14-17 for at most `fuel` iterations. The fuel only
bounds recursion; with `fuel ≥ l.length` and `ipp ≥ 1` it never runs out,
matching the source loop exactly. (For `ipp = 0` the source loop does not
terminate; the UI only supplies 1, 2, 4 or 6, and all theorems below
assume `1 ≤ ipp`.) -/
def pagesAux (ipp : ℕ) : ℕ → List α → List (List α)
  | 0, _ => []
  | _, [] => []
  | fuel + 1, x :: xs => (x :: xs).take ipp :: pagesAux ipp fuel (xs.drop (ipp - 1))

/-- The page partition (PrintLayout.tsx lines 14-17): consecutive slices
of `imagesPerPage` images. -/
def pages (ipp : ℕ) (l : List α) : List (List α) :=
  pagesAux ipp l.length l

lemma pagesAux_join (ipp : ℕ) (h : 1 ≤ ipp) :
    ∀ (fuel : ℕ) (l : List α), l.length ≤ fuel →
      (pagesAux ipp fuel l).flatten = l := by
  intro fuel
  induction fuel with
  | zero =>
    intro l hl
    rw [List.length_eq_zero.mp (Nat.le_zero.mp hl)]
    rfl
  | succ n ih =>
    intro l hl
    cases l with
    | nil => rfl
    | cons x xs =>
      show ((x :: xs).take ipp :: pagesAux ipp n (xs.drop (ipp - 1))).flatten = x :: xs
      rw [List.flatten_cons, ih (xs.drop (ipp - 1))
        (by simp only [List.length_drop, List.length_cons] at hl ⊢; omega)]
      cases ipp with
      | zero => omega
      | succ k =>
        show x :: (xs.take k ++ xs.drop (k + 1 - 1)) = x :: xs
        rw [Nat.add_sub_cancel, List.take_append_drop]

lemma pagesAux_nil (ipp fuel : ℕ) : pagesAux ipp fuel ([] : List α) = [] := by
  cases fuel <;> rfl

lemma pagesAux_chunk_size (ipp : ℕ) (h : 1 ≤ ipp) :
    ∀ (fuel : ℕ) (l : List α), l.length ≤ fuel →
      ∀ c ∈ pagesAux ipp fuel l, 0 < c.length ∧ c.length ≤ ipp := by
  intro fuel
  induction fuel with
  | zero =>
    intro l hl c hc
    rw [List.length_eq_zero.mp (Nat.le_zero.mp hl)] at hc
    exact absurd hc (by simp [pagesAux])
  | succ n ih =>
    intro l hl c hc
    cases l with
    | nil => exact absurd hc (by simp [pagesAux])
    | cons x xs =>
      rcases List.mem_cons.mp hc with rfl | hc'
      · rw [List.length_take]
        constructor
        · simp only [lt_min_iff, List.length_cons]
          omega
        · exact min_le_left _ _
      · exact ih (xs.drop (ipp - 1))
          (by simp only [List.length_drop, List.length_cons] at hl ⊢; omega) c hc'

lemma pagesAux_dropLast_size (ipp : ℕ) (h : 1 ≤ ipp) :
    ∀ (fuel : ℕ) (l : List α), l.length ≤ fuel →
      ∀ c ∈ (pagesAux ipp fuel l).dropLast, c.length = ipp := by
  intro fuel
  induction fuel with
  | zero =>
    intro l hl c hc
    rw [List.length_eq_zero.mp (Nat.le_zero.mp hl)] at hc
    exact absurd hc (by simp [pagesAux])
  | succ n ih =>
    intro l hl c hc
    cases l with
    | nil => exact absurd hc (by simp [pagesAux])
    | cons x xs =>
      have hrw : pagesAux ipp (n + 1) (x :: xs) =
          (x :: xs).take ipp :: pagesAux ipp n (xs.drop (ipp - 1)) := rfl
      rw [hrw] at hc
      cases hr : pagesAux ipp n (xs.drop (ipp - 1)) with
      | nil => rw [hr] at hc; exact absurd hc (by simp)
      | cons b tl =>
        rw [hr, List.dropLast_cons₂, List.mem_cons] at hc
        rcases hc with rfl | hc'
        · have hne : xs.drop (ipp - 1) ≠ [] := by
            intro hnil
            rw [hnil, pagesAux_nil] at hr
            exact List.noConfusion hr
          have hlen : ipp - 1 < xs.length := by
            by_contra hcon
            exact hne (List.drop_eq_nil_of_le (by omega))
          rw [List.length_take]
          simp only [List.length_cons]
          omega
        · have := ih (xs.drop (ipp - 1))
            (by simp only [List.length_drop, List.length_cons] at hl ⊢; omega)
          rw [hr] at this
          exact this c hc'

/-- Geometry computed by the single-page PDF export. -/
structure PageGeometry where
  orientation : Orientation
  pageWidth : ℚ
  pageHeight : ℚ
  padding : ℚ
  cols : ℕ
  rows : ℤ
  cellWidth : ℚ
  cellHeight : ℚ
  placements : List PxRect
  deriving DecidableEq

/-- Geometry computed by the whole-document PDF export. -/
structure DocGeometry where
  orientation : Orientation
  pageWidth : ℚ
  pageHeight : ℚ
  padding : ℚ
  cols : ℕ
  rows : ℤ
  cellWidth : ℚ
  cellHeight : ℚ
  pagePlacements : List (List PxRect)
  deriving DecidableEq

/-- Placement geometry of the single-page export (PrintLayout.tsx lines
49-96), keeping the source's own inline computation: A4 dimensions by
orientation, 3mm padding, the cols chain, `rows = ceil(ipp / cols)`, even
cell grid, and per image the aspect-fit with the 0.99 safety shrink
(0.99 written as 99/100). -/
def downloadPageAsPDF (ipp : ℚ) (pageImages : List ImgDims) : PageGeometry :=
  let orientation := getOrientation ipp
  let pageWidth : ℚ := if orientation = Orientation.landscape then 297 else 210
  let pageHeight : ℚ := if orientation = Orientation.landscape then 210 else 297
  let padding : ℚ := 3
  let cols : ℕ := if ipp = 1 then 1 else if ipp = 2 then 2 else if ipp = 4 then 2 else 3
  let rows : ℤ := ⌈ipp / (cols : ℚ)⌉
  let availableWidth := pageWidth - padding * 2
  let availableHeight := pageHeight - padding * 2
  let cellWidth := availableWidth / (cols : ℚ)
  let cellHeight := availableHeight / (rows : ℚ)
  { orientation := orientation
    pageWidth := pageWidth
    pageHeight := pageHeight
    padding := padding
    cols := cols
    rows := rows
    cellWidth := cellWidth
    cellHeight := cellHeight
    placements := pageImages.enum.map (fun p =>
      let col : ℕ := p.1 % cols
      let row : ℕ := p.1 / cols
      let imgAspect := p.2.width / p.2.height
      let cellAspect := cellWidth / cellHeight
      let dims : ℚ × ℚ :=
        if imgAspect > cellAspect then
          (cellWidth * (99 / 100), cellWidth * (99 / 100) / imgAspect)
        else
          (cellHeight * (99 / 100) * imgAspect, cellHeight * (99 / 100))
      { x := padding + (col : ℚ) * cellWidth + (cellWidth - dims.1) / 2
        y := padding + (row : ℚ) * cellHeight + (cellHeight - dims.2) / 2
        width := dims.1
        height := dims.2 }) }

/-- Placement geometry of the whole-document export (PrintLayout.tsx lines
104-158): the source duplicates the same prelude and per-image formulas,
applied to every page of the partition. -/
def downloadAllAsPDF (ipp : ℚ) (pagesList : List (List ImgDims)) : DocGeometry :=
  let orientation := getOrientation ipp
  let pageWidth : ℚ := if orientation = Orientation.landscape then 297 else 210
  let pageHeight : ℚ := if orientation = Orientation.landscape then 210 else 297
  let padding : ℚ := 3
  let cols : ℕ := if ipp = 1 then 1 else if ipp = 2 then 2 else if ipp = 4 then 2 else 3
  let rows : ℤ := ⌈ipp / (cols : ℚ)⌉
  let availableWidth := pageWidth - padding * 2
  let availableHeight := pageHeight - padding * 2
  let cellWidth := availableWidth / (cols : ℚ)
  let cellHeight := availableHeight / (rows : ℚ)
  { orientation := orientation
    pageWidth := pageWidth
    pageHeight := pageHeight
    padding := padding
    cols := cols
    rows := rows
    cellWidth := cellWidth
    cellHeight := cellHeight
    pagePlacements := pagesList.map (fun pageImages =>
      pageImages.enum.map (fun p =>
        let col : ℕ := p.1 % cols
        let row : ℕ := p.1 / cols
        let imgAspect := p.2.width / p.2.height
        let cellAspect := cellWidth / cellHeight
        let dims : ℚ × ℚ :=
          if imgAspect > cellAspect then
            (cellWidth * (99 / 100), cellWidth * (99 / 100) / imgAspect)
          else
            (cellHeight * (99 / 100) * imgAspect, cellHeight * (99 / 100))
        { x := padding + (col : ℚ) * cellWidth + (cellWidth - dims.1) / 2
          y := padding + (row : ℚ) * cellHeight + (cellHeight - dims.2) / 2
          width := dims.1
          height := dims.2 })) }

/-- C6: with at least one image per page, the page partition is the list of
consecutive chunks of size `imagesPerPage` in input order — flattening it
gives back the input, every chunk except possibly the last has exactly
`imagesPerPage` elements, and every chunk is nonempty and no longer than
`imagesPerPage`; concretely, 10 images at 4 per page give pages of sizes
[4, 4, 2], a 2 by 2 cell grid, and landscape orientation. -/
theorem c6_page_partition (α : Type) (ipp : ℕ) (h : 1 ≤ ipp) (l : List α) :
    (pages ipp l).flatten = l ∧
    (∀ c ∈ (pages ipp l).dropLast, c.length = ipp) ∧
    (∀ c ∈ pages ipp l, 0 < c.length ∧ c.length ≤ ipp) ∧
    (pages 4 [0, 1, 2, 3, 4, 5, 6, 7, 8, 9]).map List.length = [4, 4, 2] ∧
    (downloadPageAsPDF 4 []).cols = 2 ∧ (downloadPageAsPDF 4 []).rows = 2 ∧
    getOrientation 4 = Orientation.landscape := by
  refine ⟨pagesAux_join ipp h l.length l (le_refl _),
    pagesAux_dropLast_size ipp h l.length l (le_refl _),
    pagesAux_chunk_size ipp h l.length l (le_refl _), rfl, ?_, ?_, ?_⟩
  · norm_num [downloadPageAsPDF]
  · norm_num [downloadPageAsPDF]
  · norm_num [getOrientation]

/-- Witness for C6 at `imagesPerPage = 4` on a concrete 10-element list. -/
theorem c6_page_partition_witness :
    (pages 4 [0, 1, 2, 3, 4, 5, 6, 7, 8, 9]).flatten =
      [0, 1, 2, 3, 4, 5, 6, 7, 8, 9] :=
  (c6_page_partition ℕ 4 (by norm_num) [0, 1, 2, 3, 4, 5, 6, 7, 8, 9]).1

/-- Counterexample for C3 as stated: `imagesPerPage = 3` lies outside
{1, 2, 4, 6}; the on-screen grid falls back to the 2-column class, but
both PDF export paths compute 3 columns, not 2. -/
theorem c3_counterexample :
    ¬ ((3 : ℚ) = 1 ∨ (3 : ℚ) = 2 ∨ (3 : ℚ) = 4 ∨ (3 : ℚ) = 6) ∧
    getGridClass 3 = "grid-cols-2" ∧
    (downloadPageAsPDF 3 []).cols = 3 ∧
    (downloadAllAsPDF 3 []).cols = 3 ∧
    ¬ ((downloadPageAsPDF 3 []).cols = 2 ∧ (downloadAllAsPDF 3 []).cols = 2) := by
  refine ⟨by norm_num, ?_, ?_, ?_, ?_⟩
  · norm_num [getGridClass]
  · norm_num [downloadPageAsPDF]
  · norm_num [downloadAllAsPDF]
  · intro hcon
    have : (downloadPageAsPDF 3 []).cols = 3 := by norm_num [downloadPageAsPDF]
    omega

/-- C3 (amended): for every `imagesPerPage` outside {1, 2, 4, 6} the
on-screen grid falls back to the 2-column class, while both PDF export
paths fall back to 3 columns (the 6-per-page shape) with row count
`ceil(imagesPerPage / 3)`. -/
theorem c3_fallback_grid (ipp : ℚ)
    (h : ¬ (ipp = 1 ∨ ipp = 2 ∨ ipp = 4 ∨ ipp = 6))
    (imgs : List ImgDims) (pgs : List (List ImgDims)) :
    getGridClass ipp = "grid-cols-2" ∧
    (downloadPageAsPDF ipp imgs).cols = 3 ∧
    (downloadAllAsPDF ipp pgs).cols = 3 ∧
    (downloadPageAsPDF ipp imgs).rows = ⌈ipp / 3⌉ ∧
    (downloadAllAsPDF ipp pgs).rows = ⌈ipp / 3⌉ := by
  push_neg at h
  obtain ⟨h1, h2, h4, h6⟩ := h
  refine ⟨?_, ?_, ?_, ?_, ?_⟩
  · unfold getGridClass
    rw [if_neg h1, if_neg h2, if_neg h4, if_neg h6]
  · show (if ipp = 1 then 1 else if ipp = 2 then 2 else if ipp = 4 then 2 else 3) = 3
    rw [if_neg h1, if_neg h2, if_neg h4]
  · show (if ipp = 1 then 1 else if ipp = 2 then 2 else if ipp = 4 then 2 else 3) = 3
    rw [if_neg h1, if_neg h2, if_neg h4]
  · show ⌈ipp / (((if ipp = 1 then 1 else if ipp = 2 then 2
      else if ipp = 4 then 2 else 3 : ℕ)) : ℚ)⌉ = ⌈ipp / 3⌉
    rw [if_neg h1, if_neg h2, if_neg h4]
    norm_num
  · show ⌈ipp / (((if ipp = 1 then 1 else if ipp = 2 then 2
      else if ipp = 4 then 2 else 3 : ℕ)) : ℚ)⌉ = ⌈ipp / 3⌉
    rw [if_neg h1, if_neg h2, if_neg h4]
    norm_num

/-- Witness for C3's amended theorem at `imagesPerPage = 3`. -/
theorem c3_fallback_grid_witness :
    getGridClass 3 = "grid-cols-2" ∧
    (downloadPageAsPDF 3 []).cols = 3 ∧
    (downloadAllAsPDF 3 []).cols = 3 ∧
    (downloadPageAsPDF 3 []).rows = ⌈(3 : ℚ) / 3⌉ ∧
    (downloadAllAsPDF 3 []).rows = ⌈(3 : ℚ) / 3⌉ :=
  c3_fallback_grid 3 (by norm_num) [] []

/-- C7: the whole-document export computes, for every page, exactly the
placement geometry the single-page export computes for that page, and the
two paths agree on orientation, page dimensions, padding, column and row
counts, and cell dimensions. -/
theorem c7_export_paths_agree (ipp : ℚ) (pagesList : List (List ImgDims)) :
    (downloadAllAsPDF ipp pagesList).pagePlacements =
      pagesList.map (fun pg => (downloadPageAsPDF ipp pg).placements) ∧
    ∀ pg : List ImgDims,
      (downloadPageAsPDF ipp pg).orientation =
        (downloadAllAsPDF ipp pagesList).orientation ∧
      (downloadPageAsPDF ipp pg).pageWidth =
        (downloadAllAsPDF ipp pagesList).pageWidth ∧
      (downloadPageAsPDF ipp pg).pageHeight =
        (downloadAllAsPDF ipp pagesList).pageHeight ∧
      (downloadPageAsPDF ipp pg).padding =
        (downloadAllAsPDF ipp pagesList).padding ∧
      (downloadPageAsPDF ipp pg).cols =
        (downloadAllAsPDF ipp pagesList).cols ∧
      (downloadPageAsPDF ipp pg).rows =
        (downloadAllAsPDF ipp pagesList).rows ∧
      (downloadPageAsPDF ipp pg).cellWidth =
        (downloadAllAsPDF ipp pagesList).cellWidth ∧
      (downloadPageAsPDF ipp pg).cellHeight =
        (downloadAllAsPDF ipp pagesList).cellHeight :=
  ⟨rfl, fun _ => ⟨rfl, rfl, rfl, rfl, rfl, rfl, rfl, rfl⟩⟩

/-- JSON values as produced by `JSON.parse` (objects already parsed, keys
unique). Numbers are exact: serializing a finite JS number and re-parsing
it yields the identical value, so the stringify/parse step is modelled as
the identity on this tree. -/
inductive Json where
  | jnull
  | jbool (b : Bool)
  | jnum (q : ℚ)
  | jstr (s : String)
  | jarr (elems : List Json)
  | jobj (fields : List (String × Json))

/-- Property access `value.key`: some field value on objects, otherwise
undefined (none). -/
def getField (j : Json) (key : String) : Option Json :=
  match j with
  | .jobj fields => (fields.find? (fun f => f.1 = key)).map (fun f => f.2)
  | _ => Option.none

/-- JS truthiness, as used by `data.areaConfig || data`. -/
def truthy : Json → Bool
  | .jnull => false
  | .jbool b => b
  | .jnum q => q ≠ 0
  | .jstr s => s ≠ ""
  | .jarr _ => true
  | .jobj _ => true

/-- The object the import validates: `data.areaConfig || data`
(SettingsModal in AreaSelector.tsx line 412). -/
def importTarget (data : Json) : Json :=
  match getField data "areaConfig" with
  | some v => if truthy v then v else data
  | Option.none => data

/-- The export blob (SettingsModal lines 390-394): the area config nested
under `areaConfig` next to an `exportedAt` timestamp string. -/
def exportConfigBlob (a : AreaConfig) (exportedAt : String) : Json :=
  .jobj [("areaConfig", .jobj [("x", .jnum a.x), ("y", .jnum a.y),
    ("width", .jnum a.width), ("height", .jnum a.height)]),
    ("exportedAt", .jstr exportedAt)]

/-- The import validation and acceptance (SettingsModal lines 409-428):
accept exactly when `x`, `y`, `width`, `height` of the target object are
all numbers, and persist those four values; no range check is made. -/
def handleImportConfig (data : Json) : Option AreaConfig :=
  let config := importTarget data
  match getField config "x", getField config "y",
      getField config "width", getField config "height" with
  | some (.jnum x), some (.jnum y), some (.jnum w), some (.jnum h) =>
    some ⟨x, y, w, h⟩
  | _, _, _, _ => Option.none

/-- Whether all four rectangle fields of a JSON value are numbers. -/
def hasNumericRect (config : Json) : Bool :=
  (match getField config "x" with | some (.jnum _) => true | _ => false) &&
  (match getField config "y" with | some (.jnum _) => true | _ => false) &&
  (match getField config "width" with | some (.jnum _) => true | _ => false) &&
  (match getField config "height" with | some (.jnum _) => true | _ => false)

/-- C9: exporting a rectangle to the JSON configuration blob and
re-importing that blob reproduces exactly the same four numeric values. -/
theorem c9_config_round_trip (a : AreaConfig) (exportedAt : String) :
    handleImportConfig (exportConfigBlob a exportedAt) = some a := by
  obtain ⟨x, y, w, h⟩ := a
  rfl

/-- C10: the import accepts a parsed JSON value and persists a rectangle
exactly when the four fields of `data.areaConfig || data` are all numbers;
no range validation happens, so the blob `{x: -50, y: 10, width: 500,
height: 40}` is accepted and persisted although it violates the Rectangle
invariants. -/
theorem c10_import_no_range_validation :
    (∀ data : Json,
      (handleImportConfig data).isSome = hasNumericRect (importTarget data)) ∧
    handleImportConfig (.jobj [("x", .jnum (-50)), ("y", .jnum 10),
      ("width", .jnum 500), ("height", .jnum 40)]) =
      some ⟨-50, 10, 500, 40⟩ ∧
    ¬ rectInvariants ⟨-50, 10, 500, 40⟩ := by
  refine ⟨?_, rfl, by norm_num [rectInvariants]⟩
  intro data
  unfold handleImportConfig hasNumericRect
  dsimp only
  cases hx : getField (importTarget data) "x" with
  | none => rfl
  | some vx =>
    cases hy : getField (importTarget data) "y" with
    | none => cases vx <;> rfl
    | some vy =>
      cases hw : getField (importTarget data) "width" with
      | none => cases vx <;> cases vy <;> rfl
      | some vw =>
        cases hh : getField (importTarget data) "height" with
        | none => cases vx <;> cases vy <;> cases vw <;> rfl
        | some vh => cases vx <;> cases vy <;> cases vw <;> cases vh <;> rfl

end QrisEdit
